import Mathlib

/-!
Shallow embedding of the star-chain ledger (src/test-tools.js, `Blockchain` class).

Modelling conventions:
* Clock values are integers in Unix seconds.  The JavaScript code obtains the
  second-resolution clock as `new Date().getTime().toString().slice(0, -3)`,
  i.e. the millisecond clock truncated to seconds; we pass the truncated value
  `now : Int` directly.
* `SHA256(JSON.stringify(block))` is modelled by `blockDigest`, a deterministic
  injective-by-construction serialization of the block fields other than `hash`
  (at the moment the code stringifies the block, `hash` still holds the
  constructor's fixed null, so the digest is a function of exactly those
  fields).  The claims under study depend only on the digest being a stable
  deterministic function of the content, not on SHA-256 itself.
* Promises are modelled by explicit state passing; an executor that may call
  `reject`/`resolve` several times is modelled by the settlement that the code
  reaches first (in JavaScript only the first settlement of a promise counts,
  but execution continues past a `reject`, so later side effects still happen).
* Array indexing `chain[i]` is modelled totally via `List.get?`.
* The class `Block` lives in `block.js`, which is not part of the sources;
  its constructor defaults, `validate()` and `getBData()` are modelled from
  the specification where needed (marked `Modelled from the spec:`).
-/

namespace StarChain

/-- Payload of a star block: `{address, message, signature, star}` as built by
`submitStar`.  `star` is opaque client-supplied metadata, modelled as a
string. -/
structure StarPayload where
  address : String
  message : String
  signature : String
  star : String
deriving DecidableEq, Repr

/-- Body of a block: either the genesis payload `{data: "Genesis Block"}` or a
star payload.  The reversible hex/JSON encoding used by `block.js` is modelled
by storing the structured payload itself (encode/decode round-trip is the
identity). -/
inductive Body where
  | genesisData (data : String)
  | starData (p : StarPayload)
deriving DecidableEq, Repr

/-- Content of a block: every field except `hash`, i.e. the data the digest is
computed over at append time. -/
structure BlockContent where
  body : Body
  time : Int
  height : Int
  previousBlockHash : Option String
deriving DecidableEq, Repr

/-- Deterministic serialization of a body, standing in for the JSON encoding
inside `JSON.stringify(block)`. -/
def serializeBody : Body → String
  | .genesisData d =>
      "data=" ++ d
  | .starData p =>
      "address=" ++ p.address ++ ";message=" ++ p.message ++
        ";signature=" ++ p.signature ++ ";star=" ++ p.star

/-- Deterministic serialization of a block's content (all fields except
`hash`), standing in for `JSON.stringify(block)` evaluated while `hash` is
still the constructor's null. -/
def serializeContent (c : BlockContent) : String :=
  "body=" ++ serializeBody c.body ++
    "|time=" ++ toString c.time ++
    "|height=" ++ toString c.height ++
    "|prev=" ++ (match c.previousBlockHash with
                  | some h => h
                  | none => "null")

/-- Model of `SHA256(JSON.stringify(block)).toString()` in `_addBlock`: a
deterministic digest of the block's content (all fields except `hash`). -/
def blockDigest (c : BlockContent) : String :=
  "sha256:" ++ serializeContent c

/-- A sealed block as it sits in the chain after `_addBlock` has assigned
`time`, `height`, `previousBlockHash` and `hash`.  `previousBlockHash` is
`none` for the genesis block (the constructor default is never overwritten
because `chainHeight >= 0` fails). -/
structure Block where
  body : Body
  time : Int
  height : Int
  previousBlockHash : Option String
  hash : String
deriving DecidableEq, Repr

/-- The non-`hash` fields of a sealed block. -/
def Block.content (b : Block) : BlockContent :=
  ⟨b.body, b.time, b.height, b.previousBlockHash⟩

/-- Modelled from the spec: `block.js` is not among the sources.  `validate()`
recomputes the digest over the block's content with its own `hash` field
cleared/excluded and compares it to the stored `hash`; the genesis block
(`height == 0`) is always treated as valid regardless of hash match. -/
def Block.validate (b : Block) : Bool :=
  if b.height == 0 then true
  else blockDigest b.content == b.hash

/-- Modelled from the spec: `block.js` is not among the sources.  `getBData()`
decodes `body` back into the structured payload object.  A genesis-shaped
payload has no `address`/`star` fields (so a star query can never match it);
this is modelled by returning `none` for it. -/
def Block.getBData (b : Block) : Option StarPayload :=
  match b.body with
  | .starData p => some p
  | .genesisData _ => none

/-- State of the `Blockchain` object: the `chain` array and the cached
`height` field (`-1` when empty). -/
structure Chain where
  chain : List Block
  height : Int
deriving DecidableEq, Repr

/-- The freshly constructed, not yet initialized state:
`this.chain = []; this.height = -1;`. -/
def emptyChain : Chain := ⟨[], -1⟩

/-- Model of `_addBlock(block)` (src/test-tools.js lines 118-136).  The input
block has only its payload set; the method assigns `time` (current clock),
`height = chainHeight + 1`, `previousBlockHash = chain[chainHeight].hash` when
`chainHeight >= 0`, computes `hash` over the resulting content, pushes the
block and increments the cached height.  `getChainHeight()` always resolves,
so the rejection branch is unreachable.  The trailing `await
self.validateChain()` is read-only and does not affect the state. -/
def _addBlock (s : Chain) (body : Body) (now : Int) : Block × Chain :=
  let chainHeight := s.height
  let prevHash : Option String :=
    if chainHeight ≥ 0 then (s.chain.get? chainHeight.toNat).map Block.hash
    else none
  let content : BlockContent :=
    ⟨body, now, chainHeight + 1, prevHash⟩
  let b : Block :=
    ⟨body, now, chainHeight + 1, prevHash, blockDigest content⟩
  (b, ⟨s.chain ++ [b], s.height + 1⟩)

/-- Model of the constructor plus `initializeChain()`: starting from the empty
state (`height === -1`), append a genesis block with payload
`{data: 'Genesis Block'}` via `_addBlock`. -/
def newChain (now : Int) : Chain :=
  (_addBlock emptyChain (.genesisData "Genesis Block") now).2

/-- Model of `requestMessageOwnershipVerification(address)` (lines 146-152):
resolves with `address + ':' + <current Unix seconds> + ':starRegistry'` and
touches no chain state; the state is returned unchanged to make that
explicit. -/
def requestMessageOwnershipVerification (s : Chain) (address : String)
    (now : Int) : String × Chain :=
  (address ++ ":" ++ toString now ++ ":starRegistry", s)

/-- Model of JavaScript `String.prototype.split` with a single-character
separator: cut the character list at every occurrence of `sep`, keeping empty
fields (`"".split(':')` is `[""]`, `":a".split(':')` is `["", "a"]`). -/
def splitOnChar (sep : Char) : List Char → List (List Char)
  | [] => [[]]
  | c :: cs =>
      match splitOnChar sep cs with
      | [] => if c = sep then [[], []] else [[c]]
      | h :: t => if c = sep then [] :: h :: t else (c :: h) :: t

/-- Model of JavaScript `parseInt` (radix 10) on a field of characters: skip
leading spaces, allow one sign, then read the longest digit prefix; `NaN`
(no digits, or the field was `undefined`) is `none`. -/
def parseIntJS (field : List Char) : Option Int :=
  let cs := field.dropWhile (fun c => c = ' ')
  let digitsVal : List Char → Option Int := fun l =>
    let ds := l.takeWhile Char.isDigit
    if ds.isEmpty then none
    else some (ds.foldl (fun a c => a * 10 + ((c.toNat : Int) - 48)) 0)
  match cs with
  | '-' :: rest => (digitsVal rest).map (fun n => -n)
  | '+' :: rest => digitsVal rest
  | _ => digitsVal cs

/-- Model of `parseInt(message.split(':')[1])` in `submitStar`: the second
colon-delimited field parsed as an integer; `none` stands for `NaN` (field
missing or not starting with digits). -/
def parsedMessageTime (message : String) : Option Int :=
  ((splitOnChar ':' message.data).get? 1).bind parseIntJS

/-- Outcome of the external capability `bitcoinMessage.verify(message,
address, signature)`: it returns a boolean or throws. -/
inductive VerifyOutcome where
  | ok (b : Bool)
  | err (e : String)
deriving DecidableEq, Repr

/-- Rejection reason string for an expired challenge. -/
def expiredChallengeMsg : String :=
  "Error: more than 5 minutes has elapsed beyond owners timestamp within message"

/-- Rejection reason string for a failed signature check. -/
def invalidSignatureMsg : String :=
  "Error: signature does not match"

/-- Rejection reason string when the verification capability throws. -/
def verificationErrorMsg (e : String) : String :=
  "An error was encountered while trying to verify the signature: " ++ e

/-- Model of `submitStar(address, message, signature, star)` (lines 171-193).
The executor parses the embedded timestamp, compares `now - time` against
`5 * 60`, runs the verification capability, then unconditionally constructs
the star block and appends it via `_addBlock` (a JavaScript `reject` does not
stop execution).  The promise settles with whichever of the `reject`/`resolve`
calls the code reaches first: expiry dominates, then a `false`/throwing
verification, then success with the appended block.  A `NaN` time difference
(malformed message) makes the expiry comparison false. -/
def submitStar (s : Chain) (address message signature star : String)
    (now : Int) (verify : String → String → String → VerifyOutcome) :
    Except String Block × Chain :=
  let time := parsedMessageTime message
  let timeDifference : Option Int := time.map (fun t => now - t)
  let expired : Bool :=
    match timeDifference with
    | some d => d > 5 * 60
    | none => false
  let vres := verify message address signature
  let (newBlock, s2) :=
    _addBlock s (.starData ⟨address, message, signature, star⟩) now
  let settled : Except String Block :=
    if expired then .error expiredChallengeMsg
    else
      match vres with
      | .ok false => .error invalidSignatureMsg
      | .err e => .error (verificationErrorMsg e)
      | .ok true => .ok newBlock
  (settled, s2)

/-- Model of `getBlockByHash(hash)` (lines 201-206): first block with a
matching hash, if any. -/
def getBlockByHash (s : Chain) (hash : String) : Option Block :=
  s.chain.find? (fun b => b.hash == hash)

/-- Model of `getBlockByHeight(height)` (lines 213-228):
`self.chain.filter(p => p.height === height)[0]`; resolves with the block when
found (the logging of `getBData()` swallows its own errors) and with `null`
otherwise.  The operation never rejects, which the total `Option` result
makes explicit. -/
def getBlockByHeight (s : Chain) (height : Int) : Option Block :=
  (s.chain.filter (fun p => p.height == height)).head?

/-- Model of `getStarsByWalletAddress(address)` (lines 236-251): scan
`chain.slice(1)` in order, decode each block, push the `star` field whenever
the decoded `address` matches.  The JavaScript version fires the per-block
decodes as promises and resolves the accumulating array; the deterministic
front-to-back scan is the behavior the specification fixes (§4.6, §9).
`starScanStep` is the per-block action of that scan. -/
def starScanStep (address : String) (stars : List String) (block : Block) :
    List String :=
  match block.getBData with
  | some blockData =>
      if address == blockData.address then stars ++ [blockData.star]
      else stars
  | none => stars

/-- Accumulating scan of `getStarsByWalletAddress` over the non-genesis
blocks. -/
def getStarsByWalletAddress (s : Chain) (address : String) : List String :=
  (s.chain.drop 1).foldl (starScanStep address) []

/-- One step of the `validateChain` scan over a block: push an error when the
block fails self-validation, push an error when a non-genesis block's
`previousBlockHash` differs from the previous block's `hash`, then remember
this block's hash. -/
def validateStep (acc : List String × Option String) (block : Block) :
    List String × Option String :=
  let e1 :=
    if block.validate then acc.1
    else acc.1 ++ ["block did not validate, for block.hash=" ++ block.hash]
  let e2 :=
    if block.height > 0 && acc.2 ≠ block.previousBlockHash then
      e1 ++ ["previousHash does not match, for block.hash=" ++ block.hash]
    else e1
  (e2, some block.hash)

/-- Model of `validateChain()` (lines 259-271): front-to-back scan with a
`previousHash` accumulator starting at `null`, collecting the error log. -/
def validateChain (s : Chain) : List String :=
  (s.chain.foldl validateStep ([], none)).1

/-- Chain states reachable by the ledger's own operations: construction
(genesis initialization) followed by any number of `_addBlock` appends, with
no external mutation.  `submitStar` appends exactly via `_addBlock`, so its
effect is an instance of `step`. -/
inductive Reachable : Chain → Prop
  | init (now : Int) : Reachable (newChain now)
  | step (s : Chain) (body : Body) (now : Int) :
      Reachable s → Reachable ((_addBlock s body now).2)

end StarChain

namespace StarChain

/-- The genesis block as a function of the construction-time clock. -/
def genesisBlock (now : Int) : Block :=
  ⟨.genesisData "Genesis Block", now, 0, none,
    blockDigest ⟨.genesisData "Genesis Block", now, 0, none⟩⟩

/-- Explicit form of the freshly initialized chain. -/
theorem newChain_eq (now : Int) : newChain now = ⟨[genesisBlock now], 0⟩ := rfl

/-- Combined induction invariant for reachable chain states: the chain is
nonempty, the cached height is the length minus one, every stored hash is the
digest of its block's content and every height its index, consecutive blocks
are hash-linked, and the `validateChain` scan produces no errors while ending
with the last block's hash as accumulator. -/
def Inv (s : Chain) : Prop :=
  s.chain ≠ [] ∧
  s.height = (s.chain.length : Int) - 1 ∧
  (∀ i : Nat, ∀ b : Block, s.chain[i]? = some b →
      b.hash = blockDigest b.content ∧ b.height = (i : Int)) ∧
  (∀ i : Nat, ∀ prev b : Block, s.chain[i]? = some prev →
      s.chain[i+1]? = some b → b.previousBlockHash = some prev.hash) ∧
  (∃ last : Block, s.chain.getLast? = some last ∧
      s.chain.foldl validateStep ([], none) = ([], some last.hash))

/-- Every reachable chain state satisfies the combined invariant. -/
theorem reachable_inv (s : Chain) (hs : Reachable s) : Inv s := by
  induction hs with
  | init now =>
      refine ⟨by simp [newChain_eq], by simp [newChain_eq], ?_, ?_, ?_⟩
      · intro i b hb
        rw [newChain_eq] at hb
        match i, hb with
        | 0, hb =>
            cases hb
            exact ⟨rfl, rfl⟩
      · intro i prev b hprev hb
        rw [newChain_eq] at hb
        simp at hb
      · exact ⟨genesisBlock now, by rw [newChain_eq]; rfl,
          by rw [newChain_eq]; rfl⟩
  | step s body now hr ih =>
      obtain ⟨hne, hh, hdig, hlink, last, hlast, hfold⟩ := ih
      have hlen : 1 ≤ s.chain.length := List.length_pos.mpr hne
      have hh0 : s.height ≥ 0 := by omega
      have htn : s.height.toNat = s.chain.length - 1 := by omega
      have hgetlast : s.chain[s.chain.length - 1]? = some last := by
        rw [← List.getLast?_eq_getElem?]
        exact hlast
      set b := (_addBlock s body now).1 with hb
      have hchain2 : (_addBlock s body now).2.chain = s.chain ++ [b] := rfl
      have hheight2 : (_addBlock s body now).2.height = s.height + 1 := rfl
      have hbprev : b.previousBlockHash = some last.hash := by
        show (if s.height ≥ 0 then (s.chain.get? s.height.toNat).map Block.hash
              else none) = some last.hash
        rw [if_pos hh0, htn]
        rw [List.get?_eq_getElem?, hgetlast]
        rfl
      have hbheight : b.height = s.height + 1 := rfl
      have hbhash : b.hash = blockDigest b.content := rfl
      have hnew : (s.chain ++ [b])[s.chain.length]? = some b :=
        List.getElem?_concat_length s.chain b
      refine ⟨by simp [hchain2], ?_, ?_, ?_, ?_⟩
      · rw [hchain2, hheight2]
        simp
        omega
      · intro i c hc
        rw [hchain2] at hc
        by_cases hi : i < s.chain.length
        · rw [List.getElem?_append_left hi] at hc
          exact hdig i c hc
        · by_cases hieq : i = s.chain.length
          · subst hieq
            rw [hnew] at hc
            cases hc
            refine ⟨hbhash, ?_⟩
            rw [hbheight, hh]
            ring
          · rw [List.getElem?_eq_none (by simp; omega)] at hc
            cases hc
      · intro i prev c hprev hc
        rw [hchain2] at hprev hc
        by_cases hi : i + 1 < s.chain.length
        · rw [List.getElem?_append_left hi] at hc
          rw [List.getElem?_append_left (by omega)] at hprev
          exact hlink i prev c hprev hc
        · by_cases hieq : i + 1 = s.chain.length
          · rw [hieq, hnew] at hc
            cases hc
            rw [List.getElem?_append_left (by omega)] at hprev
            have hpl : prev = last := by
              have hgl := hgetlast
              rw [show s.chain.length - 1 = i by omega] at hgl
              rw [hgl] at hprev
              cases hprev
              rfl
            rw [hpl]
            exact hbprev
          · rw [List.getElem?_eq_none (by simp; omega)] at hc
            cases hc
      · refine ⟨b, ?_, ?_⟩
        · rw [hchain2]
          exact List.getLast?_concat s.chain
        · rw [hchain2, List.foldl_append, hfold]
          show validateStep ([], some last.hash) b = ([], some b.hash)
          unfold validateStep
          have hv : b.validate = true := by
            unfold Block.validate
            rw [if_neg ?hne0]
            · exact beq_iff_eq.mpr hbhash.symm
            case hne0 =>
              intro hcontra
              have := beq_iff_eq.mp hcontra
              rw [hbheight] at this
              omega
          rw [hv]
          simp only [if_true]
          rw [hbprev]
          simp

/-- Fixed verification capability used by concrete witnesses: always
accepts. -/
def demoVerifyTrue : String → String → String → VerifyOutcome :=
  fun _ _ _ => .ok true

/-- Concrete two-block chain (genesis at clock 0, one star append at clock 5)
used by concrete witnesses. -/
def demoChain : Chain :=
  (_addBlock (newChain 0) (.starData ⟨"a1", "m", "sg", "st"⟩) 5).2

/-- The star block of `demoChain`. -/
def demoStarBlock : Block :=
  (_addBlock (newChain 0) (.starData ⟨"a1", "m", "sg", "st"⟩) 5).1

/-- Concrete expired submission (challenge timestamp 10, clock 311, elapsed
301) against an always-accepting verifier, used by concrete witnesses. -/
def demoExpiredCall : Except String Block × Chain :=
  submitStar (newChain 0) "a1" "a1:10:starRegistry" "sg" "st" 311 demoVerifyTrue

end StarChain

namespace StarChain

/-- C1: when the elapsed time `now - embeddedTimestamp` exceeds 300 seconds,
`submitStar` settles with the expired-challenge rejection, for every behavior
of the signature-verification capability (so in particular regardless of
whether the signature is valid): the expiry check is decided before the
verification result can settle the promise. -/
theorem submitStar_expired_rejects (s : Chain)
    (address message signature star : String) (now t : Int)
    (verify : String → String → String → VerifyOutcome)
    (hparse : parsedMessageTime message = some t) (helapsed : now - t > 300) :
    (submitStar s address message signature star now verify).1 =
      .error expiredChallengeMsg := by
  have hd : decide (now - t > 5 * 60) = true := decide_eq_true (by omega)
  simp [submitStar, hparse, hd]
  intro hc
  exact absurd helapsed (by omega)

theorem submitStar_expired_rejects_witness :
    parsedMessageTime "a1:10:starRegistry" = some 10 ∧
    (311 : Int) - 10 > 300 ∧
    demoExpiredCall.1 = .error expiredChallengeMsg :=
  ⟨rfl, by decide,
    submitStar_expired_rejects (newChain 0) "a1" "a1:10:starRegistry" "sg" "st"
      311 10 demoVerifyTrue rfl (by decide)⟩

/-- C2 (counterexample): a message without the three-part colon-delimited
structure does not make `submitStar` fail: with message `"hello"` and an
accepting verifier the call succeeds outright, so no malformed-message
failure occurs on this input. -/
theorem submitStar_malformed_succeeds :
    (submitStar (newChain 0) "a1" "hello" "sg" "st" 500 demoVerifyTrue).1.isOk
      = true := rfl

/-- C2 (amended): `submitStar` performs no malformed-message check.  When the
second colon-delimited field of `message` does not parse as an integer (the
JavaScript `NaN` case), the expiry comparison is false and the outcome is
decided by signature verification alone: accepting verification appends the
block and succeeds, a `false` result rejects with the invalid-signature
message, a throwing verifier rejects with the verification-error message. -/
theorem submitStar_no_malformed_check (s : Chain)
    (address message signature star : String) (now : Int)
    (verify : String → String → String → VerifyOutcome)
    (hmal : parsedMessageTime message = none) :
    (submitStar s address message signature star now verify).1 =
      (match verify message address signature with
       | .ok true =>
           .ok (_addBlock s (.starData ⟨address, message, signature, star⟩)
                  now).1
       | .ok false => .error invalidSignatureMsg
       | .err e => .error (verificationErrorMsg e)) := by
  cases hv : verify message address signature with
  | ok b => cases b <;> simp [submitStar, hmal, hv]
  | err e => simp [submitStar, hmal, hv]

theorem submitStar_no_malformed_check_witness :
    parsedMessageTime "hello" = none ∧
    (submitStar (newChain 0) "a1" "hello" "sg" "st" 500 demoVerifyTrue).1 =
      .ok (_addBlock (newChain 0)
            (.starData ⟨"a1", "hello", "sg", "st"⟩) 500).1 :=
  ⟨rfl, submitStar_no_malformed_check (newChain 0) "a1" "hello" "sg" "st" 500
    demoVerifyTrue rfl⟩

/-- C3: whenever `submitStar` rejects with the expired-challenge or the
invalid-signature message, the star block is nonetheless constructed and
appended: the chain grows by exactly one block, the one carrying the
submitted `{address, message, signature, star}` payload. -/
theorem submitStar_rejected_still_appends (s : Chain)
    (address message signature star : String) (now : Int)
    (verify : String → String → String → VerifyOutcome)
    (hrej : (submitStar s address message signature star now verify).1 =
        .error expiredChallengeMsg ∨
      (submitStar s address message signature star now verify).1 =
        .error invalidSignatureMsg) :
    ((submitStar s address message signature star now verify).2).chain.length
        = s.chain.length + 1 ∧
    ((submitStar s address message signature star now verify).2).chain =
      s.chain ++
        [(_addBlock s (.starData ⟨address, message, signature, star⟩) now).1] ∧
    ((_addBlock s (.starData ⟨address, message, signature, star⟩) now).1).body
        = .starData ⟨address, message, signature, star⟩ := by
  refine ⟨?_, rfl, rfl⟩
  show (s.chain ++ [_]).length = s.chain.length + 1
  simp

theorem submitStar_rejected_still_appends_witness :
    demoExpiredCall.1 = .error expiredChallengeMsg ∧
    demoExpiredCall.2.chain.length = (newChain 0).chain.length + 1 ∧
    demoExpiredCall.2.chain = (newChain 0).chain ++
      [(_addBlock (newChain 0)
          (.starData ⟨"a1", "a1:10:starRegistry", "sg", "st"⟩) 311).1] ∧
    ((_addBlock (newChain 0)
        (.starData ⟨"a1", "a1:10:starRegistry", "sg", "st"⟩) 311).1).body =
      .starData ⟨"a1", "a1:10:starRegistry", "sg", "st"⟩ :=
  ⟨rfl,
    submitStar_rejected_still_appends (newChain 0) "a1" "a1:10:starRegistry"
      "sg" "st" 311 demoVerifyTrue (Or.inl rfl)⟩

/-- C4: the block sealed by `_addBlock` stores as `hash` exactly the digest of
its content — all fields except `hash` — and that content already carries the
assigned `time` (the current clock), `height` (previous height plus one) and
`previousBlockHash` (hash of the block at the cached height, when one
exists). -/
theorem addBlock_hash_over_content (s : Chain) (body : Body) (now : Int) :
    ((_addBlock s body now).1).hash =
      blockDigest ((_addBlock s body now).1).content ∧
    ((_addBlock s body now).1).content =
      ⟨body, now, s.height + 1,
        if s.height ≥ 0 then (s.chain.get? s.height.toNat).map Block.hash
        else none⟩ :=
  ⟨rfl, rfl⟩

/-- C5: in every chain state reachable by genesis initialization followed by
appends, every block at height `h > 0` stores the hash of its predecessor as
`previousBlockHash`, and its own `hash` is the recomputed digest of its
content. -/
theorem reachable_chain_integrity (s : Chain) (hs : Reachable s) (h : Nat)
    (hpos : 0 < h) (b prev : Block) (hb : s.chain[h]? = some b)
    (hprev : s.chain[h-1]? = some prev) :
    b.previousBlockHash = some prev.hash ∧ b.hash = blockDigest b.content := by
  obtain ⟨-, -, hdig, hlink, -⟩ := reachable_inv s hs
  refine ⟨hlink (h-1) prev b hprev ?_, (hdig h b hb).1⟩
  rw [Nat.sub_add_cancel hpos]
  exact hb

theorem reachable_chain_integrity_witness :
    demoStarBlock.previousBlockHash = some (genesisBlock 0).hash ∧
    demoStarBlock.hash = blockDigest demoStarBlock.content :=
  reachable_chain_integrity demoChain
    (Reachable.step (newChain 0) (.starData ⟨"a1", "m", "sg", "st"⟩) 5
      (Reachable.init 0))
    1 (by decide) demoStarBlock (genesisBlock 0) rfl rfl

/-- C6: `validateChain()` reports no errors on any chain state produced only
by genesis initialization and successful appends. -/
theorem reachable_validateChain_empty (s : Chain) (hs : Reachable s) :
    validateChain s = [] := by
  obtain ⟨-, -, -, -, last, -, hfold⟩ := reachable_inv s hs
  unfold validateChain
  rw [hfold]

theorem reachable_validateChain_empty_witness :
    validateChain demoChain = [] :=
  reachable_validateChain_empty demoChain
    (Reachable.step (newChain 0) (.starData ⟨"a1", "m", "sg", "st"⟩) 5
      (Reachable.init 0))

/-- C7: chain initialization creates exactly one genesis block, and for every
construction-time clock it has height 0, no `previousBlockHash`, and passes
self-`validate()`. -/
theorem genesis_block_fixed (now : Int) :
    (newChain now).chain = [genesisBlock now] ∧
    (genesisBlock now).height = 0 ∧
    (genesisBlock now).previousBlockHash = none ∧
    (genesisBlock now).validate = true :=
  ⟨rfl, rfl, rfl, rfl⟩

/-- C8: `requestMessageOwnershipVerification` produces exactly
`"{address}:{currentUnixTimeSeconds}:starRegistry"` and leaves the ledger
state untouched (no server-side session state). -/
theorem requestMessage_form_stateless (s : Chain) (address : String)
    (now : Int) :
    (requestMessageOwnershipVerification s address now).1 =
      address ++ ":" ++ toString now ++ ":starRegistry" ∧
    (requestMessageOwnershipVerification s address now).2 = s :=
  ⟨rfl, rfl⟩

/-- Unfolding of the star scan: folding `starScanStep` over any block list
appends, in order, the `star` fields of the decodable blocks whose decoded
`address` matches. -/
theorem starScan_foldl (address : String) (l : List Block)
    (acc : List String) :
    l.foldl (starScanStep address) acc =
      acc ++ ((l.filterMap Block.getBData).filter
        (fun p => address == p.address)).map StarPayload.star := by
  induction l generalizing acc with
  | nil => simp
  | cons b l ih =>
      rw [List.foldl_cons, ih]
      cases hb : b.getBData with
      | none => simp [starScanStep, hb]
      | some p =>
          by_cases hp : (address == p.address) = true
          · simp [starScanStep, hb, hp]
          · simp [starScanStep, hb, hp]

/-- C9: `getStarsByWalletAddress` returns exactly the `star` fields of the
non-genesis blocks (the scan skips index 0) whose decoded payload `address`
equals the query address, in original chain order. -/
theorem getStars_matches_filter (s : Chain) (address : String) :
    getStarsByWalletAddress s address =
      (((s.chain.drop 1).filterMap Block.getBData).filter
        (fun p => address == p.address)).map StarPayload.star := by
  unfold getStarsByWalletAddress
  rw [starScan_foldl]
  simp

/-- C10: when no block in the chain carries the queried height — in
particular for any height beyond the current chain length —
`getBlockByHeight` resolves with `none`; being a total function into
`Option`, it never produces an error. -/
theorem getBlockByHeight_not_found (s : Chain) (height : Int)
    (h : ∀ b ∈ s.chain, b.height ≠ height) :
    getBlockByHeight s height = none := by
  unfold getBlockByHeight
  have hfil : s.chain.filter (fun p => p.height == height) = [] := by
    rw [List.filter_eq_nil_iff]
    intro b hb
    simpa using h b hb
  rw [hfil]
  rfl

theorem getBlockByHeight_not_found_witness :
    (∀ b ∈ (newChain 0).chain, b.height ≠ 5) ∧
    getBlockByHeight (newChain 0) 5 = none :=
  ⟨by decide, getBlockByHeight_not_found (newChain 0) 5 (by decide)⟩

end StarChain
